import Mathlib

/-!
Shallow embedding of the transport/protocol-framing core of the
couchbase client excerpt, together with proofs about its behaviour.

The embedding follows the C++ sources:
  * `ext/couchbase/operations/document_lookup_in.hxx`
  * `ext/couchbase/operations/document_get.hxx`
  * `ext/couchbase/operations/analytics_index_get_all.hxx`
  * `ext/couchbase/io/streams.hxx`

Machine integers are modelled as `Nat` (none of the verified code paths
overflow-wrap), `std::error_code` as an inductive with a distinguished
"no error" value, fallible decoding as `Option`, and the opaque
structured-document type of the JSON library as an explicit inductive
tree.  `std::stable_sort` with a strict comparator `lt` is embedded as
the stable `List.mergeSort` with the induced total preorder
`le a b := !(lt b a)`; `std::sort` (used only on lists with pairwise
distinct keys, where every conforming sort agrees) is embedded the same
way.  The C++ field `opaque` is rendered `opaque_` because `opaque` is a
Lean keyword, and `exists` is rendered `exists'` for the same reason.
-/

/-- Embedding of `protocol::status` (binary protocol status codes); only the values the
verified operations inspect are distinguished, every other wire value is
carried by `other`. -/
inductive status where
  | success
  | subdoc_success_deleted
  | other (code : Nat)
deriving DecidableEq, Repr, Inhabited

/-- Embedding of `std::error_code`: `ok` is the default (falsy) value; `operation_aborted`
is `asio::error::operation_aborted`; `internal_server_failure` is
`error::common_errc::internal_server_failure`; other codes are carried
by `other`. -/
inductive error_code where
  | ok
  | operation_aborted
  | internal_server_failure
  | other (code : Nat)
deriving DecidableEq, Repr, Inhabited

/-- Modelled from the spec: the document identity (`document_id.hxx` is not
part of the excerpt); the spec treats it as an opaque key/id carried
through encode and decode unchanged. -/
structure document_id where
  bucket : String
  key : String
deriving DecidableEq, Repr, Inhabited

/-- Constant `lookup_in_request_body::lookup_in_specs::path_flag_xattr`: the
"extended attribute" bit of a subdocument path spec. -/
def path_flag_xattr : Nat := 4

/-- One entry of `lookup_in_request_body::lookup_in_specs`: opcode, flags
(including the xattr bit), path, and the original submission index
stamped by `encode_to`. -/
structure lookup_in_spec_entry where
  opcode : Nat
  flags : Nat
  path : String
  original_index : Nat
deriving DecidableEq, Repr, Inhabited

/-- Embedding of `lookup_in_request_body::lookup_in_specs`. -/
structure lookup_in_specs where
  entries : List lookup_in_spec_entry
deriving DecidableEq, Repr, Inhabited

/-- Embedding of `operations::lookup_in_request` (timeout omitted: no verified path
reads it). -/
structure lookup_in_request where
  id : document_id
  partition : Nat
  opaque_ : Nat
  access_deleted : Bool
  specs : lookup_in_specs
deriving DecidableEq, Repr, Inhabited

/-- The encoded frame produced by `lookup_in_request::encode_to`: the header
fields it stamps plus the body sections it serializes. -/
structure lookup_in_encoded_request where
  opaque_ : Nat
  partition : Nat
  id : document_id
  access_deleted : Bool
  specs : lookup_in_specs
deriving DecidableEq, Repr, Inhabited

/-- Embedding of `operations::lookup_in_response::field`. -/
structure lookup_in_response_field where
  opcode : Nat
  exists' : Bool
  status : status
  path : String
  value : String
  original_index : Nat
deriving DecidableEq, Repr, Inhabited

/-- Embedding of `operations::lookup_in_response`. -/
structure lookup_in_response where
  id : document_id
  opaque_ : Nat
  ec : error_code
  cas : Nat
  fields : List lookup_in_response_field
deriving DecidableEq, Repr, Inhabited

/-- One decoded per-spec result inside the lookup-in response body, in
transmission order.  Modelled from the spec: `cmd_lookup_in.hxx` is not
part of the excerpt; the spec says each decoded field carries a status
and a value. -/
structure lookup_in_body_field where
  status : status
  value : String
deriving DecidableEq, Repr, Inhabited

/-- The decoded `client_response<lookup_in_response_body>`: correlation
token, cas and the per-spec fields in transmission order. -/
structure lookup_in_encoded_response where
  opaque_ : Nat
  cas : Nat
  fields : List lookup_in_body_field
deriving DecidableEq, Repr, Inhabited

/-- The strict comparator passed to `std::stable_sort` in
`lookup_in_request::encode_to`:
`(lhs.flags & path_flag_xattr) > (rhs.flags & path_flag_xattr)`. -/
def xattr_lt (lhs rhs : lookup_in_spec_entry) : Bool :=
  decide ((lhs.flags &&& path_flag_xattr) > (rhs.flags &&& path_flag_xattr))

/-- The total preorder induced by `xattr_lt`, used to run the stable sort
as a `mergeSort` (`a` may stay before `b` iff `b` is not strictly less
than `a`). -/
def xattr_le (lhs rhs : lookup_in_spec_entry) : Bool :=
  !(xattr_lt rhs lhs)

/-- The first loop of `encode_to`: stamp every spec entry with its
zero-based original submission index. -/
def lookup_in_stamp (entries : List lookup_in_spec_entry) : List lookup_in_spec_entry :=
  entries.enum.map (fun p => { p.2 with original_index := p.1 })

/-- Embedding of `lookup_in_request::encode_to`: stamp the original indices, stable-sort
by the xattr bit (xattr entries first), then write the header fields and
the body.  The C++ mutates `request.specs` in place; the embedding
returns the mutated request together with the encoded frame. -/
def lookup_in_encode_to (r : lookup_in_request) : lookup_in_request × lookup_in_encoded_request :=
  let sorted := (lookup_in_stamp r.specs.entries).mergeSort xattr_le
  let r' : lookup_in_request := { r with specs := { entries := sorted } }
  (r', { opaque_ := r'.opaque_, partition := r'.partition, id := r'.id,
         access_deleted := r'.access_deleted, specs := r'.specs })

/-- The seeding loop of `make_response` (lookup_in): `resize` followed by
copying `original_index`, `opcode`, `path` from the request entry and
setting `status` to success; `exists` and `value` keep their
value-initialized defaults. -/
def seed_field (e : lookup_in_spec_entry) : lookup_in_response_field :=
  { opcode := e.opcode, exists' := false, status := .success, path := e.path,
    value := "", original_index := e.original_index }

/-- The body of the copy loop of `make_response` (lookup_in): overwrite
status, the derived existence flag, and value from one decoded field. -/
def apply_body_field (f : lookup_in_response_field) (d : lookup_in_body_field) :
    lookup_in_response_field :=
  { f with status := d.status,
           exists' := decide (d.status = .success ∨ d.status = .subdoc_success_deleted),
           value := d.value }

/-- The copy loop of `make_response` (lookup_in): write decoded field `i`
into response field `i` for every `i` below the decoded count.  The C++
loop indexes `response.fields[i]` unchecked; the embedding returns `none`
when a decoded index would be out of bounds. -/
def apply_decoded :
    List lookup_in_response_field → List lookup_in_body_field →
      Option (List lookup_in_response_field)
  | fs, [] => some fs
  | [], _ :: _ => none
  | f :: fs, d :: ds => (apply_decoded fs ds).map (fun rest => apply_body_field f d :: rest)

/-- The strict comparator passed to `std::sort` at the end of
`make_response` (lookup_in): `lhs.original_index < rhs.original_index`. -/
def field_lt (lhs rhs : lookup_in_response_field) : Bool :=
  decide (lhs.original_index < rhs.original_index)

/-- The total preorder induced by `field_lt`, used to run the final sort as
a `mergeSort` (on the verified inputs the keys are pairwise distinct, so
every conforming sort produces this result). -/
def field_le (lhs rhs : lookup_in_response_field) : Bool :=
  !(field_lt rhs lhs)

/-- Embedding of `make_response` for lookup_in (`document_lookup_in.hxx`): build the
response with the request id, the wire correlation token and the error
code; fall back to the request token when the error is set and no token
was recovered; on success seed one field per request spec entry, copy
the decoded fields over by transmission position, and sort by
`original_index`. -/
def lookup_in_make_response (ec : error_code) (request : lookup_in_request)
    (encoded : lookup_in_encoded_response) : Option lookup_in_response :=
  let opaque0 := encoded.opaque_
  let opaque1 := if ec ≠ .ok ∧ opaque0 = 0 then request.opaque_ else opaque0
  if ec = .ok then
    match apply_decoded (request.specs.entries.map seed_field) encoded.fields with
    | none => none
    | some fs =>
        some { id := request.id, opaque_ := opaque1, ec := ec, cas := encoded.cas,
               fields := fs.mergeSort field_le }
  else
    some { id := request.id, opaque_ := opaque1, ec := ec, cas := 0, fields := [] }

/-- Embedding of `operations::get_request` (timeout omitted). -/
structure get_request where
  id : document_id
  partition : Nat
  opaque_ : Nat
deriving DecidableEq, Repr, Inhabited

/-- The encoded frame produced by `get_request::encode_to`: the stamped
header fields and, as the only body payload, the document identity. -/
structure get_encoded_request where
  opaque_ : Nat
  partition : Nat
  id : document_id
deriving DecidableEq, Repr, Inhabited

/-- The decoded `client_response<get_response_body>`: correlation token,
cas, and the body's value and flags.  Modelled from the spec:
`cmd_get.hxx` is not part of the excerpt. -/
structure get_encoded_response where
  opaque_ : Nat
  cas : Nat
  value : String
  flags : Nat
deriving DecidableEq, Repr, Inhabited

/-- Embedding of `operations::get_response`. -/
structure get_response where
  id : document_id
  opaque_ : Nat
  ec : error_code
  value : String
  cas : Nat
  flags : Nat
deriving DecidableEq, Repr, Inhabited

/-- Embedding of `get_request::encode_to`: stamp opaque and partition into the header
and serialize the document identity as the body. -/
def get_encode_to (r : get_request) : get_encoded_request :=
  { opaque_ := r.opaque_, partition := r.partition, id := r.id }

/-- Embedding of `make_response` for get (`document_get.hxx`). -/
def get_make_response (ec : error_code) (request : get_request)
    (encoded : get_encoded_response) : get_response :=
  let opaque0 := encoded.opaque_
  let opaque1 := if ec ≠ .ok ∧ opaque0 = 0 then request.opaque_ else opaque0
  if ec = .ok then
    { id := request.id, opaque_ := opaque1, ec := ec,
      value := encoded.value, cas := encoded.cas, flags := encoded.flags }
  else
    { id := request.id, opaque_ := opaque1, ec := ec,
      value := "", cas := 0, flags := 0 }

/-- The opaque structured-document type of the JSON library
(`tao::json::value`), modelled as an explicit tree; numbers are
modelled as `Nat` (the verified paths only read unsigned integers). -/
inductive jvalue where
  | null
  | boolean (b : Bool)
  | number (n : Nat)
  | str (s : String)
  | arr (elems : List jvalue)
  | obj (members : List (String × jvalue))

/-- First member of an object member list with the given key. -/
def find_member : List (String × jvalue) → String → Option jvalue
  | [], _ => none
  | (k, x) :: rest, key => if k = key then some x else find_member rest key

/-- Embedding of `tao::json::value::find` / `at` on an object key: `none` when the value
is not an object or the key is absent (`at` throws there, `find` returns
a null pointer; both surface as `none` in the embedding). -/
def jvalue.find_key (v : jvalue) (key : String) : Option jvalue :=
  match v with
  | .obj members => find_member members key
  | _ => none

/-- Embedding of `get_string`: `none` models the library throw on a non-string. -/
def jvalue.get_string : jvalue → Option String
  | .str s => some s
  | _ => none

/-- Embedding of `get_boolean`: `none` models the library throw on a non-boolean. -/
def jvalue.get_boolean : jvalue → Option Bool
  | .boolean b => some b
  | _ => none

/-- Embedding of `as<std::uint32_t>`: a number representable in 32 bits, otherwise the
library throws (`none`). -/
def jvalue.as_uint32 : jvalue → Option Nat
  | .number n => if n < 2 ^ 32 then some n else none
  | _ => none

/-- Embedding of `is_array`. -/
def jvalue.is_array : jvalue → Bool
  | .arr _ => true
  | _ => false

/-- Embedding of `get_array` (only ever called under an `is_array` guard). -/
def jvalue.get_array : jvalue → List jvalue
  | .arr xs => xs
  | _ => []

/-- Embedding of `analytics_index_get_all_response::index`. -/
structure analytics_index where
  name : String
  dataverse_name : String
  dataset_name : String
  is_primary : Bool
deriving DecidableEq, Repr, Inhabited

/-- Embedding of `analytics_index_get_all_response::problem`. -/
structure analytics_problem where
  code : Nat
  message : String
deriving DecidableEq, Repr, Inhabited

/-- Embedding of `operations::analytics_index_get_all_request` (timeout omitted; the
client context id is chosen by the caller/uuid generator). -/
structure analytics_index_get_all_request where
  client_context_id : String
deriving DecidableEq, Repr, Inhabited

/-- Embedding of `operations::analytics_index_get_all_response`. -/
structure analytics_index_get_all_response where
  client_context_id : String
  ec : error_code
  status : String
  indexes : List analytics_index
  errors : List analytics_problem
deriving DecidableEq, Repr, Inhabited

/-- Embedding of `io::http_response`, restricted to what `make_response` reads: the body,
already parsed into the structured-document type (`tao::json::from_string`
is library-external). -/
structure http_response where
  body : jvalue

/-- The per-result extraction of the success loop of `make_response`
(analytics_index_get_all): read `IndexName`, `DataverseName`,
`DatasetName`, `IsPrimary`; any missing or mistyped member throws
(`none`). -/
def parse_index (v : jvalue) : Option analytics_index := do
  let name ← (v.find_key "IndexName").bind jvalue.get_string
  let dataverse ← (v.find_key "DataverseName").bind jvalue.get_string
  let dataset ← (v.find_key "DatasetName").bind jvalue.get_string
  let primary ← (v.find_key "IsPrimary").bind jvalue.get_boolean
  pure { name := name, dataverse_name := dataverse, dataset_name := dataset,
         is_primary := primary }

/-- The per-error extraction of the failure branch of `make_response`
(analytics_index_get_all): read `code` as uint32 and `msg` as string;
any missing or mistyped member throws (`none`). -/
def parse_problem (v : jvalue) : Option analytics_problem := do
  let c ← (v.find_key "code").bind jvalue.as_uint32
  let m ← (v.find_key "msg").bind jvalue.get_string
  pure { code := c, message := m }

/-- Embedding of `make_response` for analytics_index_get_all
(`analytics_index_get_all.hxx`): on a transport error return the response
as-is; otherwise read the top-level `status`; on `"success"` collect the
`results` array (absent or non-array degrades to no results); otherwise
collect the `errors` array into problem records (absent or non-array
degrades to no records) and set the generic internal-server-failure
error. -/
def analytics_index_get_all_make_response (ec : error_code)
    (request : analytics_index_get_all_request) (encoded : http_response) :
    Option analytics_index_get_all_response :=
  let response : analytics_index_get_all_response :=
    { client_context_id := request.client_context_id, ec := ec,
      status := "", indexes := [], errors := [] }
  if ec = .ok then
    match (encoded.body.find_key "status").bind jvalue.get_string with
    | none => none
    | some st =>
      if st = "success" then
        match encoded.body.find_key "results" with
        | some results =>
          if results.is_array then
            match results.get_array.mapM parse_index with
            | none => none
            | some idxs => some { response with status := st, indexes := idxs }
          else
            some { response with status := st }
        | none => some { response with status := st }
      else
        match encoded.body.find_key "errors" with
        | some errs =>
          if errs.is_array then
            match errs.get_array.mapM parse_problem with
            | none => none
            | some probs =>
                some { response with
                        status := st,
                        errors := probs,
                        ec := .internal_server_failure }
          else
            some { response with status := st, ec := .internal_server_failure }
        | none => some { response with status := st, ec := .internal_server_failure }
  else
    some response

/-- Observable events of `tls_stream_impl::async_connect`: the client-side
handshake being initiated, and the registered completion handler being
invoked with an error code. -/
inductive tls_connect_event where
  | handshake_started
  | handler_invoked (ec : error_code)
deriving DecidableEq, Repr

/-- Embedding of `tls_stream_impl::async_connect` (`io/streams.hxx`), as the trace of
observable events once the TCP connect stage has completed with
`ec_connect` and - when a handshake is started - the handshake stage has
completed with `ec_handshake`: an aborted connect returns silently; a
failed connect invokes the handler with that error; a successful connect
starts the handshake, whose outcome reaches the handler under the same
cancellation-swallowing rule. -/
def tls_async_connect (ec_connect ec_handshake : error_code) : List tls_connect_event :=
  if ec_connect = .operation_aborted then []
  else if ec_connect ≠ .ok then [.handler_invoked ec_connect]
  else
    .handshake_started ::
      (if ec_handshake = .operation_aborted then [] else [.handler_invoked ec_handshake])

/-- The completion-handler invocations contained in an event trace. -/
def handler_invocations (events : List tls_connect_event) : List error_code :=
  events.filterMap (fun e =>
    match e with
    | .handler_invoked ec => some ec
    | .handshake_started => none)

/-- Whether a spec entry has the extended-attribute bit set: the sort key of
the comparator in `encode_to`. -/
def is_xattr (e : lookup_in_spec_entry) : Bool :=
  decide ((e.flags &&& path_flag_xattr) ≠ 0)

/-- The part of a response field never touched by the decoded-field copy
loop: original index, opcode and path. -/
def field_triple (f : lookup_in_response_field) : Nat × Nat × String :=
  (f.original_index, f.opcode, f.path)

/-- The corresponding projection of a request spec entry. -/
def entry_triple (e : lookup_in_spec_entry) : Nat × Nat × String :=
  (e.original_index, e.opcode, e.path)

/-- Sample multi-path request taken from the spec scenario: a document-body
path `"a"` followed by an extended-attribute path `"$xtoc"`. -/
def sample_lookup_request : lookup_in_request :=
  { id := { bucket := "default", key := "doc1" }, partition := 5, opaque_ := 11,
    access_deleted := false,
    specs := { entries :=
      [ { opcode := 0, flags := 0, path := "a", original_index := 0 },
        { opcode := 4, flags := 4, path := "$xtoc", original_index := 0 } ] } }

/-- Sample decoded wire response for `sample_lookup_request`, carrying its
two per-spec results in transmission order (xattr result first). -/
def sample_lookup_encoded : lookup_in_encoded_response :=
  { opaque_ := 11, cas := 7,
    fields := [ { status := .subdoc_success_deleted, value := "vx" },
                { status := .other 9, value := "va" } ] }

/-- A decoded wire response for `sample_lookup_request` carrying only one
per-spec result: a partial (short) field list. -/
def sample_lookup_encoded_short : lookup_in_encoded_response :=
  { opaque_ := 11, cas := 7,
    fields := [ { status := .other 9, value := "vv" } ] }

/-- The response `make_response` produces for `sample_lookup_request` after
encoding and `sample_lookup_encoded`: both per-path results restored to
submission order. -/
def sample_lookup_response : lookup_in_response :=
  { id := { bucket := "default", key := "doc1" }, opaque_ := 11, ec := .ok, cas := 7,
    fields :=
      [ { opcode := 0, exists' := false, status := .other 9, path := "a",
          value := "va", original_index := 0 },
        { opcode := 4, exists' := true, status := .subdoc_success_deleted, path := "$xtoc",
          value := "vx", original_index := 1 } ] }

/-- Sample KV get request taken from the spec scenario. -/
def sample_get_request : get_request :=
  { id := { bucket := "default", key := "doc1" }, partition := 5, opaque_ := 11 }

/-- Sample successful decoded get frame from the spec scenario. -/
def sample_get_encoded : get_encoded_response :=
  { opaque_ := 11, cas := 42, value := "hello", flags := 0 }

/-- A decoded get frame carrying no correlation token (failure path). -/
def sample_get_encoded_zero : get_encoded_response :=
  { opaque_ := 0, cas := 0, value := "", flags := 0 }

/-- A decoded lookup-in frame carrying no correlation token. -/
def sample_lookup_encoded_zero : lookup_in_encoded_response :=
  { opaque_ := 0, cas := 0, fields := [] }

/-- The failure response `make_response` produces for
`sample_lookup_request` and `sample_lookup_encoded_zero` under error
`other 2`: the correlation token falls back to the request's. -/
def sample_lookup_error_response : lookup_in_response :=
  { id := { bucket := "default", key := "doc1" }, opaque_ := 11, ec := .other 2,
    cas := 0, fields := [] }

/-- Sample analytics request with a fixed client context id. -/
def sample_analytics_request : analytics_index_get_all_request :=
  { client_context_id := "ctx" }

/-- Analytics body with success status and no `results` member. -/
def sample_success_body : jvalue :=
  .obj [ ("status", .str "success") ]

/-- Analytics body from the spec scenario: error status with one
`{code:24000, msg:"Parse error"}` record. -/
def sample_errors_body : jvalue :=
  .obj [ ("status", .str "errors"),
         ("errors", .arr [ .obj [ ("code", .number 24000), ("msg", .str "Parse error") ] ]) ]

/-! Helper lemmas -/

theorem field_le_iff (a b : lookup_in_response_field) :
    field_le a b = true ↔ a.original_index ≤ b.original_index := by
  simp [field_le, field_lt, Nat.not_lt]

theorem field_le_trans (a b c : lookup_in_response_field) :
    field_le a b → field_le b c → field_le a c := by
  simp only [field_le_iff]
  omega

theorem field_le_total (a b : lookup_in_response_field) :
    field_le a b || field_le b a := by
  rcases Nat.le_total a.original_index b.original_index with h | h <;>
    simp [field_le_iff, h]

theorem and_path_flag_cases (n : Nat) :
    n &&& path_flag_xattr = 0 ∨ n &&& path_flag_xattr = 4 := by
  have h := Nat.and_two_pow n 2
  norm_num at h
  rw [path_flag_xattr, h]
  cases n.testBit 2 <;> simp

theorem xattr_le_eq :
    xattr_le = fun a b => is_xattr a || !(is_xattr b) := by
  funext a b
  rcases and_path_flag_cases a.flags with h1 | h1 <;>
    rcases and_path_flag_cases b.flags with h2 | h2 <;>
      simp [xattr_le, xattr_lt, is_xattr, h1, h2]

theorem lookup_in_stamp_length (es : List lookup_in_spec_entry) :
    (lookup_in_stamp es).length = es.length := by
  simp [lookup_in_stamp]

theorem lookup_in_stamp_getElem (es : List lookup_in_spec_entry) (i : Nat)
    (h : i < (lookup_in_stamp es).length) :
    (lookup_in_stamp es).get ⟨i, h⟩ =
      { es.get ⟨i, by simpa [lookup_in_stamp_length] using h⟩ with original_index := i } := by
  simp [lookup_in_stamp, List.getElem_enum]

theorem lookup_in_stamp_map_original_index (es : List lookup_in_spec_entry) :
    (lookup_in_stamp es).map (fun e => e.original_index) = List.range es.length := by
  have hcomp :
      ((fun e : lookup_in_spec_entry => e.original_index) ∘
        fun p : Nat × lookup_in_spec_entry =>
          ({ p.2 with original_index := p.1 } : lookup_in_spec_entry)) = Prod.fst := by
    funext p
    rfl
  rw [lookup_in_stamp, List.map_map, hcomp, List.enum_map_fst]

theorem mem_lookup_in_stamp {es : List lookup_in_spec_entry}
    {e : lookup_in_spec_entry} (h : e ∈ lookup_in_stamp es) :
    e.original_index < es.length ∧
      e.opcode = (es.getD e.original_index default).opcode ∧
      e.path = (es.getD e.original_index default).path := by
  obtain ⟨⟨i, hi⟩, hget⟩ := List.mem_iff_get.mp h
  rw [lookup_in_stamp_getElem es i hi] at hget
  have hlen : i < es.length := by simpa [lookup_in_stamp_length] using hi
  have hoi : e.original_index = i := by rw [← hget]
  subst hget
  refine ⟨by simpa [hoi] using hlen, ?_, ?_⟩ <;>
    simp [hoi, List.getElem?_eq_getElem hlen]

theorem apply_decoded_isSome_iff :
    ∀ (fs : List lookup_in_response_field) (ds : List lookup_in_body_field),
      (apply_decoded fs ds).isSome = true ↔ ds.length ≤ fs.length
  | _fs, [] => by simp [apply_decoded]
  | [], _d :: _ds => by simp [apply_decoded]
  | f :: fs, d :: ds => by
    simp [apply_decoded, apply_decoded_isSome_iff fs ds, Nat.succ_le_succ_iff]

theorem apply_decoded_map_triple :
    ∀ {fs : List lookup_in_response_field} {ds : List lookup_in_body_field}
      {fs' : List lookup_in_response_field},
      apply_decoded fs ds = some fs' → fs'.map field_triple = fs.map field_triple
  | _fs, [], _fs' => by
    intro h
    simp only [apply_decoded, Option.some.injEq] at h
    rw [h]
  | [], _d :: _ds, _fs' => by
    intro h
    simp [apply_decoded] at h
  | f :: fs, d :: ds, fs' => by
    intro h
    simp only [apply_decoded, Option.map_eq_some'] at h
    obtain ⟨rest, hrest, hfs'⟩ := h
    subst hfs'
    simp [apply_decoded_map_triple hrest, field_triple, apply_body_field]

theorem apply_decoded_getD_lt :
    ∀ {fs : List lookup_in_response_field} {ds : List lookup_in_body_field}
      {fs' : List lookup_in_response_field},
      apply_decoded fs ds = some fs' → ∀ j, j < ds.length →
        fs'.getD j default = apply_body_field (fs.getD j default) (ds.getD j default)
  | _fs, [], _fs' => by
    intro _h j hj
    simp at hj
  | [], _d :: _ds, _fs' => by
    intro h
    simp [apply_decoded] at h
  | f :: fs, d :: ds, fs' => by
    intro h j hj
    simp only [apply_decoded, Option.map_eq_some'] at h
    obtain ⟨rest, hrest, hfs'⟩ := h
    subst hfs'
    cases j with
    | zero => simp
    | succ j =>
      have hj' : j < ds.length := by simpa using hj
      simpa using apply_decoded_getD_lt hrest j hj'

theorem apply_decoded_getD_ge :
    ∀ {fs : List lookup_in_response_field} {ds : List lookup_in_body_field}
      {fs' : List lookup_in_response_field},
      apply_decoded fs ds = some fs' → ∀ j, ds.length ≤ j →
        fs'.getD j default = fs.getD j default
  | _fs, [], _fs' => by
    intro h _j _hj
    simp only [apply_decoded, Option.some.injEq] at h
    rw [h]
  | [], _d :: _ds, _fs' => by
    intro h
    simp [apply_decoded] at h
  | f :: fs, d :: ds, fs' => by
    intro h j hj
    simp only [apply_decoded, Option.map_eq_some'] at h
    obtain ⟨rest, hrest, hfs'⟩ := h
    subst hfs'
    cases j with
    | zero => simp at hj
    | succ j =>
      have hj' : ds.length ≤ j := by simpa using hj
      simpa using apply_decoded_getD_ge hrest j hj'

theorem lookup_in_make_response_ok {r : lookup_in_request}
    {enc : lookup_in_encoded_response} {resp : lookup_in_response}
    (h : lookup_in_make_response .ok r enc = some resp) :
    ∃ fs, apply_decoded (r.specs.entries.map seed_field) enc.fields = some fs ∧
      resp = { id := r.id, opaque_ := enc.opaque_, ec := .ok, cas := enc.cas,
               fields := fs.mergeSort field_le } := by
  unfold lookup_in_make_response at h
  simp only [if_pos rfl] at h
  cases happ : apply_decoded (r.specs.entries.map seed_field) enc.fields with
  | none =>
    rw [happ] at h
    simp at h
  | some fs =>
    rw [happ] at h
    refine ⟨fs, rfl, ?_⟩
    have := (Option.some.injEq _ _).mp h
    simp at this ⊢
    exact this.symm

theorem lookup_in_make_response_header {ec : error_code} {r : lookup_in_request}
    {enc : lookup_in_encoded_response} {resp : lookup_in_response}
    (h : lookup_in_make_response ec r enc = some resp) :
    resp.id = r.id ∧ resp.ec = ec ∧
      resp.opaque_ = if ec ≠ .ok ∧ enc.opaque_ = 0 then r.opaque_ else enc.opaque_ := by
  by_cases hec : ec = .ok
  · subst hec
    obtain ⟨fs, _, hresp⟩ := lookup_in_make_response_ok h
    subst hresp
    simp
  · unfold lookup_in_make_response at h
    rw [if_neg hec] at h
    have := (Option.some.injEq _ _).mp h
    subst this
    simp

theorem lookup_in_make_response_error {ec : error_code} {r : lookup_in_request}
    {enc : lookup_in_encoded_response} {resp : lookup_in_response}
    (hec : ec ≠ .ok) (h : lookup_in_make_response ec r enc = some resp) :
    resp.fields = [] := by
  unfold lookup_in_make_response at h
  rw [if_neg hec] at h
  have := (Option.some.injEq _ _).mp h
  subst this
  simp

theorem partitioned_append_inj {α : Type*} (p : α → Bool) :
    ∀ {l₁ l₂ A B : List α}, l₁ ++ l₂ = A ++ B →
      (∀ x ∈ l₁, p x = true) → (∀ x ∈ l₂, p x = false) →
      (∀ x ∈ A, p x = true) → (∀ x ∈ B, p x = false) →
      l₁ = A ∧ l₂ = B
  | [], l₂, A, B => by
    intro heq _h1 h2 hA _hB
    cases A with
    | nil => exact ⟨rfl, by simpa using heq⟩
    | cons a A' =>
      exfalso
      have ha : a ∈ l₂ := by
        rw [List.nil_append] at heq
        rw [heq]
        exact List.mem_append_left _ (List.mem_cons_self a A')
      have := h2 a ha
      rw [hA a (List.mem_cons_self a A')] at this
      cases this
  | x :: t, l₂, A, B => by
    intro heq h1 h2 hA hB
    cases A with
    | nil =>
      exfalso
      have hx : x ∈ B := by
        rw [List.nil_append] at heq
        rw [← heq]
        exact List.mem_cons_self x _
      have := hB x hx
      rw [h1 x (List.mem_cons_self x t)] at this
      cases this
    | cons a A' =>
      rw [List.cons_append, List.cons_append] at heq
      have hx : x = a := (List.cons.injEq _ _ _ _).mp heq |>.1
      have ht : t ++ l₂ = A' ++ B := (List.cons.injEq _ _ _ _).mp heq |>.2
      have ih := partitioned_append_inj p ht
        (fun y hy => h1 y (List.mem_cons_of_mem x hy)) h2
        (fun y hy => hA y (List.mem_cons_of_mem a hy)) hB
      exact ⟨by rw [hx, ih.1], ih.2⟩

theorem mergeSort_two_key {α : Type*} (p : α → Bool) :
    ∀ l : List α,
      l.mergeSort (fun a b => p a || !(p b)) =
        l.filter p ++ l.filter (fun a => !(p a))
  | [] => by simp
  | a :: l => by
    have trans : ∀ x y z : α, (p x || !(p y)) → (p y || !(p z)) → (p x || !(p z)) := by
      intro x y z hxy hyz
      cases hx : p x <;> cases hy : p y <;> cases hz : p z <;> simp_all
    have total : ∀ x y : α, (p x || !(p y)) || (p y || !(p x)) := by
      intro x y
      cases hx : p x <;> cases hy : p y <;> simp_all
    obtain ⟨l₁, l₂, h1, h2, h3⟩ := List.mergeSort_cons trans total a l
    have ih := mergeSort_two_key p l
    cases hp : p a with
    | true =>
      cases l₁ with
      | cons b t =>
        exfalso
        have := h3 b (List.mem_cons_self b t)
        simp [hp] at this
      | nil =>
        rw [h1]
        rw [List.nil_append] at h2
        rw [h2] at ih
        rw [ih]
        simp [List.filter_cons, hp]
    | false =>
      have hall₁ : ∀ b ∈ l₁, p b = true := by
        intro b hb
        have := h3 b hb
        cases hpb : p b
        · rw [hp, hpb] at this
          simp at this
        · rfl
      have hs := List.sorted_mergeSort trans total (a :: l)
      rw [h1] at hs
      have hall₂ : ∀ b ∈ l₂, p b = false := by
        intro b hb
        have hcons := (List.pairwise_append.mp hs).2.1
        have hrel := List.rel_of_pairwise_cons hcons hb
        cases hpb : p b
        · rfl
        · rw [hp, hpb] at hrel
          simp at hrel
      have hfe : l₁ ++ l₂ = l.filter p ++ l.filter (fun x => !(p x)) := by
        rw [← h2, ih]
      have hsplit := partitioned_append_inj p hfe hall₁ hall₂
        (fun x hx => (List.mem_filter.mp hx).2)
        (fun x hx => by
          have := (List.mem_filter.mp hx).2
          simpa using this)
      rw [h1, hsplit.1, hsplit.2]
      simp [List.filter_cons, hp]

theorem sorted_perm_range {l : List Nat} {n : Nat}
    (hs : l.Pairwise (· ≤ ·)) (hp : l.Perm (List.range n)) : l = List.range n :=
  List.eq_of_perm_of_sorted hp hs (List.pairwise_le_range n)

theorem lookup_in_restore_core (r₀ : lookup_in_request) (enc : lookup_in_encoded_response)
    (resp : lookup_in_response)
    (h : lookup_in_make_response .ok (lookup_in_encode_to r₀).1 enc = some resp) :
    resp.fields.map (fun f => f.original_index) = List.range r₀.specs.entries.length ∧
      ∀ f ∈ resp.fields,
        f.original_index < r₀.specs.entries.length ∧
          f.opcode = (r₀.specs.entries.getD f.original_index default).opcode ∧
          f.path = (r₀.specs.entries.getD f.original_index default).path := by
  obtain ⟨fs, happ, hresp⟩ := lookup_in_make_response_ok h
  have hentries : (lookup_in_encode_to r₀).1.specs.entries =
      (lookup_in_stamp r₀.specs.entries).mergeSort xattr_le := rfl
  rw [hentries] at happ
  have hfields : resp.fields = fs.mergeSort field_le := by rw [hresp]
  have htrip : fs.map field_triple =
      ((lookup_in_stamp r₀.specs.entries).mergeSort xattr_le).map entry_triple := by
    have h1 := apply_decoded_map_triple happ
    rw [h1, List.map_map]
    have hcomp : field_triple ∘ seed_field = entry_triple := by
      funext e
      rfl
    rw [hcomp]
  have hcomp1 : (fun f : lookup_in_response_field => f.original_index) =
      Prod.fst ∘ field_triple := by
    funext f
    rfl
  have hcomp2 : (fun e : lookup_in_spec_entry => e.original_index) =
      Prod.fst ∘ entry_triple := by
    funext e
    rfl
  have hoi : fs.map (fun f => f.original_index) =
      ((lookup_in_stamp r₀.specs.entries).mergeSort xattr_le).map
        (fun e => e.original_index) := by
    rw [hcomp1, hcomp2, ← List.map_map, ← List.map_map, htrip]
  have hperm : (resp.fields.map (fun f => f.original_index)).Perm
      (List.range r₀.specs.entries.length) := by
    rw [hfields]
    have hp1 : ((fs.mergeSort field_le).map (fun f => f.original_index)).Perm
        (fs.map (fun f => f.original_index)) := (List.mergeSort_perm fs field_le).map _
    have hp2 : (fs.map (fun f => f.original_index)).Perm
        ((lookup_in_stamp r₀.specs.entries).map (fun e => e.original_index)) := by
      rw [hoi]
      exact (List.mergeSort_perm _ xattr_le).map _
    have hp3 := hp1.trans hp2
    rw [lookup_in_stamp_map_original_index] at hp3
    exact hp3
  have hsorted : (resp.fields.map (fun f => f.original_index)).Pairwise (· ≤ ·) := by
    rw [hfields, List.pairwise_map]
    have hs := List.sorted_mergeSort field_le_trans field_le_total fs
    exact hs.imp (fun hab => (field_le_iff _ _).mp hab)
  refine ⟨sorted_perm_range hsorted hperm, ?_⟩
  intro f hf
  have hf' : f ∈ fs := by
    rw [hfields] at hf
    exact List.mem_mergeSort.mp hf
  have hmem : field_triple f ∈ fs.map field_triple := List.mem_map_of_mem _ hf'
  rw [htrip] at hmem
  obtain ⟨e, he, heq⟩ := List.mem_map.mp hmem
  have he' : e ∈ lookup_in_stamp r₀.specs.entries := List.mem_mergeSort.mp he
  obtain ⟨hb, hop, hpath⟩ := mem_lookup_in_stamp he'
  have h1 : e.original_index = f.original_index := congrArg Prod.fst heq
  have h2 : e.opcode = f.opcode := congrArg (fun t => t.2.1) heq
  have h3 : e.path = f.path := congrArg (fun t => t.2.2) heq
  refine ⟨by rw [← h1]; exact hb, ?_, ?_⟩
  · rw [← h2, ← h1]
    exact hop
  · rw [← h3, ← h1]
    exact hpath

/-! Claim theorems -/

/-- Claim C1: for every multi-path subdocument lookup request on which
`encode_to` was called once and whose response decodes without error, the
response produced by `make_response` has `fields[i].original_index = i`
for every `i` in range, i.e. the fields come back in the caller's
original submission order, with each field's opcode and path equal to
the submitted spec's opcode and path. -/
theorem subdoc_order_restoration (r₀ : lookup_in_request)
    (enc : lookup_in_encoded_response) (resp : lookup_in_response)
    (h : lookup_in_make_response .ok (lookup_in_encode_to r₀).1 enc = some resp) :
    resp.fields.length = r₀.specs.entries.length ∧
      ∀ i, i < resp.fields.length →
        (resp.fields.getD i default).original_index = i ∧
          (resp.fields.getD i default).opcode =
            (r₀.specs.entries.getD i default).opcode ∧
          (resp.fields.getD i default).path =
            (r₀.specs.entries.getD i default).path := by
  obtain ⟨hrange, hmem⟩ := lookup_in_restore_core r₀ enc resp h
  have hlen : resp.fields.length = r₀.specs.entries.length := by
    have hl := congrArg List.length hrange
    simpa using hl
  refine ⟨hlen, ?_⟩
  intro i hi
  have hi' : i < (resp.fields.map (fun f => f.original_index)).length := by
    simpa using hi
  have hgm : (resp.fields.map (fun f => f.original_index)).get ⟨i, hi'⟩ =
      (resp.fields.get ⟨i, hi⟩).original_index := by
    simp
  have hgr : (resp.fields.map (fun f => f.original_index)).get ⟨i, hi'⟩ = i := by
    simp [hrange]
  have hoi : (resp.fields.get ⟨i, hi⟩).original_index = i := by
    rw [← hgm, hgr]
  obtain ⟨_hb, hop, hpath⟩ :=
    hmem (resp.fields.get ⟨i, hi⟩) (resp.fields.get_mem i hi)
  have hgetd : resp.fields.getD i default = resp.fields.get ⟨i, hi⟩ := by
    rw [List.getD_eq_getElem _ _ hi, List.get_eq_getElem]
  rw [hgetd]
  refine ⟨hoi, ?_, ?_⟩
  · rw [hop, hoi]
  · rw [hpath, hoi]

/-- Witness for C1 on the spec scenario: two paths, the xattr one sent
first on the wire, restored to submission order by `make_response`. -/
theorem subdoc_order_restoration_witness :
    sample_lookup_response.fields.length = sample_lookup_request.specs.entries.length ∧
      (sample_lookup_response.fields.getD 0 default).original_index = 0 ∧
      (sample_lookup_response.fields.getD 1 default).original_index = 1 ∧
      (sample_lookup_response.fields.getD 1 default).path =
        (sample_lookup_request.specs.entries.getD 1 default).path := by
  have h : lookup_in_make_response .ok (lookup_in_encode_to sample_lookup_request).1
      sample_lookup_encoded = some sample_lookup_response := by
    simp [lookup_in_make_response, lookup_in_encode_to, lookup_in_stamp,
          sample_lookup_request, sample_lookup_encoded, sample_lookup_response,
          List.enum, List.enumFrom, List.mergeSort,
          apply_decoded, apply_body_field, seed_field,
          xattr_le, xattr_lt, field_le, field_lt, path_flag_xattr]
  have happ := subdoc_order_restoration sample_lookup_request sample_lookup_encoded
    sample_lookup_response h
  refine ⟨happ.1, (happ.2 0 (by decide)).1, (happ.2 1 (by decide)).1,
    (happ.2 1 (by decide)).2.2⟩

/-- Claim C2: `encode_to` stamps every spec entry with its zero-based
submission index and then stable-sorts the entries so that all
xattr-flagged entries precede all others while each group keeps its
submission order: the encoded entry list is exactly the xattr-flagged
stamped entries (in submission order) followed by the remaining stamped
entries (in submission order). -/
theorem subdoc_encode_stable_partition (r : lookup_in_request) :
    (lookup_in_encode_to r).1.specs.entries =
        (lookup_in_stamp r.specs.entries).filter is_xattr ++
          (lookup_in_stamp r.specs.entries).filter (fun e => !(is_xattr e)) ∧
      ∀ i, i < r.specs.entries.length →
        (lookup_in_stamp r.specs.entries).getD i default =
          { r.specs.entries.getD i default with original_index := i } := by
  constructor
  · have he : (lookup_in_encode_to r).1.specs.entries =
        (lookup_in_stamp r.specs.entries).mergeSort xattr_le := rfl
    rw [he, xattr_le_eq]
    exact mergeSort_two_key is_xattr (lookup_in_stamp r.specs.entries)
  · intro i hi
    have hi' : i < (lookup_in_stamp r.specs.entries).length := by
      simpa [lookup_in_stamp_length] using hi
    rw [List.getD_eq_getElem _ _ hi', List.getD_eq_getElem _ _ hi]
    exact lookup_in_stamp_getElem r.specs.entries i hi'

/-- Witness for C2 on the spec scenario request. -/
theorem subdoc_encode_stable_partition_witness :
    (lookup_in_encode_to sample_lookup_request).1.specs.entries =
        (lookup_in_stamp sample_lookup_request.specs.entries).filter is_xattr ++
          (lookup_in_stamp sample_lookup_request.specs.entries).filter
            (fun e => !(is_xattr e)) ∧
      (lookup_in_stamp sample_lookup_request.specs.entries).getD 1 default =
        { sample_lookup_request.specs.entries.getD 1 default with original_index := 1 } :=
  ⟨(subdoc_encode_stable_partition sample_lookup_request).1,
    (subdoc_encode_stable_partition sample_lookup_request).2 1 (by decide)⟩

/-- Claim C4, counterexample to the claim as stated: with the error
indicator set, `make_response` leaves the field list empty, so a request
with one spec entry yields zero field entries, not one. -/
theorem lookup_in_fields_invariant_counterexample :
    (lookup_in_make_response (.other 1)
          { id := { bucket := "b", key := "k" }, partition := 0, opaque_ := 9,
            access_deleted := false,
            specs := { entries :=
              [ { opcode := 0, flags := 0, path := "p", original_index := 0 } ] } }
          { opaque_ := 9, cas := 0, fields := [] }).map
        (fun resp => resp.fields.length) = some 0 ∧
      ({ id := { bucket := "b", key := "k" }, partition := 0, opaque_ := 9,
         access_deleted := false,
         specs := { entries :=
           [ { opcode := 0, flags := 0, path := "p", original_index := 0 } ] } } :
            lookup_in_request).specs.entries.length = 1 := by
  decide

/-- Claim C4 (amended): for an encoded request whose response decodes
without error, the response carries exactly one field per submitted spec
and the `original_index` values are exactly `0, ..., n-1` in order (a
bijection onto the submission positions, whatever the transmission
order); when the error indicator is set, the field list is empty. -/
theorem lookup_in_fields_bijection (r₀ r : lookup_in_request)
    (enc : lookup_in_encoded_response) (ec : error_code)
    (resp resp' : lookup_in_response) :
    (lookup_in_make_response .ok (lookup_in_encode_to r₀).1 enc = some resp' →
        resp'.fields.length = r₀.specs.entries.length ∧
          resp'.fields.map (fun f => f.original_index) =
            List.range r₀.specs.entries.length) ∧
      (ec ≠ .ok → lookup_in_make_response ec r enc = some resp → resp.fields = []) := by
  constructor
  · intro h
    obtain ⟨hrange, _⟩ := lookup_in_restore_core r₀ enc resp' h
    refine ⟨?_, hrange⟩
    have hl := congrArg List.length hrange
    simpa using hl
  · intro hec h
    exact lookup_in_make_response_error hec h

/-- Witness for the amended C4 on the spec scenario. -/
theorem lookup_in_fields_bijection_witness :
    sample_lookup_response.fields.length = sample_lookup_request.specs.entries.length ∧
      sample_lookup_response.fields.map (fun f => f.original_index) =
        List.range sample_lookup_request.specs.entries.length := by
  have h : lookup_in_make_response .ok (lookup_in_encode_to sample_lookup_request).1
      sample_lookup_encoded = some sample_lookup_response := by
    simp [lookup_in_make_response, lookup_in_encode_to, lookup_in_stamp,
          sample_lookup_request, sample_lookup_encoded, sample_lookup_response,
          List.enum, List.enumFrom, List.mergeSort,
          apply_decoded, apply_body_field, seed_field,
          xattr_le, xattr_lt, field_le, field_lt, path_flag_xattr]
  exact (lookup_in_fields_bijection sample_lookup_request sample_lookup_request
    sample_lookup_encoded .ok sample_lookup_response sample_lookup_response).1 h

/-- Claim C5: when a response decodes without error but carries fewer
fields than the request has spec entries, `make_response` succeeds (the
short list is not a decode error: the result keeps the success error
code), only the transmission-order positions present in the decoded list
receive decoded status/existence/value data, and every later position
keeps its pre-seeded default: the field seeded from the request's entry
at that position (status success, existence flag unset, empty value,
opcode/path/original index copied from the request entry). -/
theorem lookup_in_short_field_list (r : lookup_in_request)
    (enc : lookup_in_encoded_response)
    (h : enc.fields.length < r.specs.entries.length) :
    ∃ fs, apply_decoded (r.specs.entries.map seed_field) enc.fields = some fs ∧
      lookup_in_make_response .ok r enc =
        some { id := r.id, opaque_ := enc.opaque_, ec := .ok, cas := enc.cas,
               fields := fs.mergeSort field_le } ∧
      (∀ j, j < enc.fields.length →
        fs.getD j default =
          apply_body_field (seed_field (r.specs.entries.getD j default))
            (enc.fields.getD j default)) ∧
      (∀ j, enc.fields.length ≤ j → j < r.specs.entries.length →
        fs.getD j default = seed_field (r.specs.entries.getD j default)) := by
  have hsome : (apply_decoded (r.specs.entries.map seed_field) enc.fields).isSome = true := by
    rw [apply_decoded_isSome_iff]
    rw [List.length_map]
    exact Nat.le_of_lt h
  obtain ⟨fs, happ⟩ := Option.isSome_iff_exists.mp hsome
  have hmap : ∀ j, j < r.specs.entries.length →
      (r.specs.entries.map seed_field).getD j default =
        seed_field (r.specs.entries.getD j default) := by
    intro j hjn
    rw [List.getD_eq_getElem _ _ (by simpa using hjn), List.getD_eq_getElem _ _ hjn]
    simp
  refine ⟨fs, happ, ?_, ?_, ?_⟩
  · simp [lookup_in_make_response, happ]
  · intro j hj
    rw [apply_decoded_getD_lt happ j hj, hmap j (Nat.lt_trans hj h)]
  · intro j hj hjn
    rw [apply_decoded_getD_ge happ j hj, hmap j hjn]

/-- Witness for C5: one decoded field against two submitted specs. -/
theorem lookup_in_short_field_list_witness :
    ∃ fs, apply_decoded (sample_lookup_request.specs.entries.map seed_field)
        sample_lookup_encoded_short.fields = some fs ∧
      lookup_in_make_response .ok sample_lookup_request sample_lookup_encoded_short =
        some { id := sample_lookup_request.id,
               opaque_ := sample_lookup_encoded_short.opaque_, ec := .ok,
               cas := sample_lookup_encoded_short.cas,
               fields := fs.mergeSort field_le } ∧
      (∀ j, j < sample_lookup_encoded_short.fields.length →
        fs.getD j default =
          apply_body_field (seed_field (sample_lookup_request.specs.entries.getD j default))
            (sample_lookup_encoded_short.fields.getD j default)) ∧
      (∀ j, sample_lookup_encoded_short.fields.length ≤ j →
        j < sample_lookup_request.specs.entries.length →
        fs.getD j default = seed_field (sample_lookup_request.specs.entries.getD j default)) :=
  lookup_in_short_field_list sample_lookup_request sample_lookup_encoded_short (by decide)

/-- Claim C10: the copy loop's indexing into the response field array is
in bounds exactly when the decoded field count does not exceed the spec
count (the code itself checks no bound): the embedded `make_response`
hits no out-of-bounds write - returns a response - iff the error
indicator is set or the decoded count is at most the spec count. -/
theorem lookup_in_decode_index_safety (ec : error_code) (r : lookup_in_request)
    (enc : lookup_in_encoded_response) :
    (lookup_in_make_response ec r enc).isSome = true ↔
      (ec = .ok → enc.fields.length ≤ r.specs.entries.length) := by
  by_cases hec : ec = .ok
  · subst hec
    have hiff := apply_decoded_isSome_iff (r.specs.entries.map seed_field) enc.fields
    rw [List.length_map] at hiff
    unfold lookup_in_make_response
    rw [if_pos rfl]
    cases happ : apply_decoded (r.specs.entries.map seed_field) enc.fields with
    | none =>
      rw [happ] at hiff
      have hnot : ¬ enc.fields.length ≤ r.specs.entries.length := by
        intro hle
        simpa using hiff.mpr hle
      simp [hnot]
    | some fs =>
      rw [happ] at hiff
      have hle : enc.fields.length ≤ r.specs.entries.length := hiff.mp rfl
      simp [hle]
  · unfold lookup_in_make_response
    rw [if_neg hec]
    simp [hec]

/-- Witness for C10: a decoded count equal to the spec count is accepted. -/
theorem lookup_in_decode_index_safety_witness :
    (lookup_in_make_response .ok sample_lookup_request sample_lookup_encoded).isSome = true :=
  (lookup_in_decode_index_safety .ok sample_lookup_request sample_lookup_encoded).mpr
    (fun _ => by decide)

/-- Claim C3: every response built by `make_response` (get and lookup_in),
success or failure, echoes the request id, and its correlation token is
the wire token whenever one was recovered (nonzero), while an error
response whose frame carries no token falls back to the request's
token. -/
theorem make_response_correlation (ec : error_code)
    (greq : get_request) (genc : get_encoded_response)
    (lreq : lookup_in_request) (lenc : lookup_in_encoded_response)
    (lresp : lookup_in_response)
    (hl : lookup_in_make_response ec lreq lenc = some lresp) :
    ((get_make_response ec greq genc).id = greq.id ∧
      (genc.opaque_ ≠ 0 → (get_make_response ec greq genc).opaque_ = genc.opaque_) ∧
      (ec ≠ .ok → genc.opaque_ = 0 →
        (get_make_response ec greq genc).opaque_ = greq.opaque_)) ∧
    (lresp.id = lreq.id ∧
      (lenc.opaque_ ≠ 0 → lresp.opaque_ = lenc.opaque_) ∧
      (ec ≠ .ok → lenc.opaque_ = 0 → lresp.opaque_ = lreq.opaque_)) := by
  obtain ⟨hid, _hec, hop⟩ := lookup_in_make_response_header hl
  constructor
  · refine ⟨?_, ?_, ?_⟩
    · by_cases hec : ec = .ok <;> simp [get_make_response, hec]
    · intro hnz
      by_cases hec : ec = .ok <;> simp [get_make_response, hec, hnz]
    · intro hec hz
      simp [get_make_response, hec, hz]
  · refine ⟨hid, ?_, ?_⟩
    · intro hnz
      rw [hop]
      simp [hnz]
    · intro hec hz
      rw [hop]
      simp [hec, hz]

/-- Witness for C3: a failed get and a failed lookup whose frames carry no
token both fall back to the request token, and both echo the request
id. -/
theorem make_response_correlation_witness :
    (get_make_response (.other 2) sample_get_request sample_get_encoded_zero).opaque_ =
        sample_get_request.opaque_ ∧
      sample_lookup_error_response.opaque_ = sample_lookup_request.opaque_ ∧
      sample_lookup_error_response.id = sample_lookup_request.id := by
  have h := make_response_correlation (.other 2) sample_get_request sample_get_encoded_zero
    sample_lookup_request sample_lookup_encoded_zero sample_lookup_error_response
    (by decide)
  exact ⟨h.1.2.2 (by decide) (by decide), h.2.2.2 (by decide) (by decide), h.2.1⟩

/-- Claim C9: the spec's get scenario: encoding stamps the opaque and the
partition into the frame with the document identity as the only body
payload, and decoding a successful frame with cas 42, flags 0 and value
"hello" yields exactly those response fields with the error unset. -/
theorem get_scenario_roundtrip :
    get_encode_to sample_get_request =
        { opaque_ := 11, partition := 5, id := { bucket := "default", key := "doc1" } } ∧
      get_make_response .ok sample_get_request sample_get_encoded =
        { id := { bucket := "default", key := "doc1" }, opaque_ := 11, ec := .ok,
          value := "hello", cas := 42, flags := 0 } := by
  constructor <;> rfl

/-- Claim C6: the TLS connect chain: a cancelled TCP connect invokes no
handler; any other connect failure invokes the handler exactly once with
that error and starts no handshake; a successful connect starts the
handshake, and the handler receives the handshake outcome unless the
handshake was cancelled, in which case no handler runs. -/
theorem tls_connect_completion (ec_connect ec_handshake : error_code) :
    (ec_connect = .operation_aborted →
        handler_invocations (tls_async_connect ec_connect ec_handshake) = []) ∧
      (ec_connect ≠ .operation_aborted → ec_connect ≠ .ok →
        handler_invocations (tls_async_connect ec_connect ec_handshake) = [ec_connect] ∧
          tls_connect_event.handshake_started ∉ tls_async_connect ec_connect ec_handshake) ∧
      (ec_connect = .ok →
        tls_connect_event.handshake_started ∈ tls_async_connect ec_connect ec_handshake ∧
          (ec_handshake = .operation_aborted →
            handler_invocations (tls_async_connect ec_connect ec_handshake) = []) ∧
          (ec_handshake ≠ .operation_aborted →
            handler_invocations (tls_async_connect ec_connect ec_handshake) =
              [ec_handshake])) := by
  refine ⟨?_, ?_, ?_⟩
  · intro h
    subst h
    simp [tls_async_connect, handler_invocations]
  · intro h1 h2
    constructor
    · simp [tls_async_connect, handler_invocations, h1, h2]
    · simp [tls_async_connect, h1, h2]
  · intro h
    subst h
    refine ⟨?_, ?_, ?_⟩
    · simp [tls_async_connect]
    · intro hh
      simp [tls_async_connect, handler_invocations, hh]
    · intro hh
      simp [tls_async_connect, handler_invocations, hh]

/-- Witness for C6: a connect failing with a non-cancellation error
reaches the handler exactly once and never starts a handshake. -/
theorem tls_connect_completion_witness :
    handler_invocations (tls_async_connect (.other 3) .ok) = [.other 3] ∧
      tls_connect_event.handshake_started ∉ tls_async_connect (.other 3) .ok :=
  (tls_connect_completion (.other 3) .ok).2.1 (by decide) (by decide)

/-- Claim C7: an analytics response decoded without transport error whose
status is "success" but which has no `results` array (absent member or
not an array) yields an empty index list with no error set: the missing
member is not a decode failure. -/
theorem analytics_missing_results_leniency (req : analytics_index_get_all_request)
    (enc : http_response)
    (hstatus : (enc.body.find_key "status").bind jvalue.get_string = some "success")
    (hresults : ∀ v, enc.body.find_key "results" = some v → v.is_array = false) :
    analytics_index_get_all_make_response .ok req enc =
      some { client_context_id := req.client_context_id, ec := .ok,
             status := "success", indexes := [], errors := [] } := by
  cases hr : enc.body.find_key "results" with
  | none => simp [analytics_index_get_all_make_response, hstatus, hr]
  | some v => simp [analytics_index_get_all_make_response, hstatus, hr, hresults v hr]

/-- Witness for C7: a body with only a success status. -/
theorem analytics_missing_results_leniency_witness :
    analytics_index_get_all_make_response .ok sample_analytics_request
        { body := sample_success_body } =
      some { client_context_id := sample_analytics_request.client_context_id, ec := .ok,
             status := "success", indexes := [], errors := [] } :=
  analytics_missing_results_leniency sample_analytics_request { body := sample_success_body }
    (by decide)
    (fun v hv => by
      simp [sample_success_body, jvalue.find_key, find_member] at hv)

/-- Claim C8: an analytics response decoded without transport error whose
status is not "success" has each member of its `errors` array extracted,
in array order, into a problem record carrying the member's uint32 code
and msg string, and the response error is set to the generic
internal-server-failure kind whatever the individual server codes are. -/
theorem analytics_error_extraction (req : analytics_index_get_all_request)
    (enc : http_response) (st : String) (es : List jvalue)
    (probs : List analytics_problem)
    (hstatus : (enc.body.find_key "status").bind jvalue.get_string = some st)
    (hst : st ≠ "success")
    (herrors : enc.body.find_key "errors" = some (jvalue.arr es))
    (hparse : es.mapM parse_problem = some probs) :
    analytics_index_get_all_make_response .ok req enc =
      some { client_context_id := req.client_context_id,
             ec := .internal_server_failure, status := st, indexes := [],
             errors := probs } := by
  have hloop : List.mapM.loop parse_problem es [] = some probs := hparse
  simp [analytics_index_get_all_make_response, hstatus, hst, herrors, hparse, hloop,
        jvalue.is_array, jvalue.get_array]

/-- Witness for C8 on the spec scenario: one error `{24000, "Parse error"}`
extracted, error set to internal-server-failure. -/
theorem analytics_error_extraction_witness :
    analytics_index_get_all_make_response .ok sample_analytics_request
        { body := sample_errors_body } =
      some { client_context_id := sample_analytics_request.client_context_id,
             ec := .internal_server_failure, status := "errors", indexes := [],
             errors := [ { code := 24000, message := "Parse error" } ] } :=
  analytics_error_extraction sample_analytics_request { body := sample_errors_body }
    "errors" [ .obj [ ("code", .number 24000), ("msg", .str "Parse error") ] ]
    [ { code := 24000, message := "Parse error" } ]
    rfl (by decide) rfl rfl
